import Mathlib

/-!
Shallow embedding of the PlumbingEstimator takeoff engine
(scale calibration and resolution, WBS category tree, takeoff ledger
aggregation, RFQ lifecycle), translated from the Python sources under
`src/`, together with theorems settling the specification claims.

Real-valued database columns (REAL) are modelled as rationals so that the
arithmetic of the source is exact; identifiers are natural numbers;
nullable columns are `Option`; fallible routes return `Except`.
-/

namespace PlumbingEstimator

/-! ## Data model (from `src/database/db.py` table schemas) -/

/-- Row of `projects` (`src/database/db.py`): the fields the claims need. -/
structure Project where
  id : Nat
  companyId : Nat
deriving Repr, DecidableEq

/-- Row of `drawings` (`src/database/db.py`). -/
structure Drawing where
  id : Nat
  projectId : Nat
deriving Repr, DecidableEq

/-- Row of `company_materials` (`src/database/db.py`,
`src/database/materials_db.py` `init_materials_tables`). -/
structure Material where
  id : Nat
  companyId : Nat
  partNumber : String
  category : String
  description : String
  size : String
  unit : String
  listPrice : ℚ
  laborUnits : ℚ
  isActive : Bool
deriving Repr, DecidableEq

/-- Row of `takeoff_items` (`src/database/materials_db.py`). -/
structure TakeoffItem where
  id : Nat
  drawingId : Nat
  pageNumber : Nat
  materialId : Nat
  wbsCategoryId : Option Nat
  quantity : ℚ
  multiplier : ℚ
deriving Repr, DecidableEq

/-- Row of `wbs_categories` (`src/database/db.py`). -/
structure WbsCategory where
  id : Nat
  projectId : Nat
  parentId : Option Nat
  name : String
  sortOrder : Int
deriving Repr, DecidableEq

/-- Row of `detected_items` (`src/database/db.py`): the legacy detection
records; only the fields the claims touch. -/
structure DetectedItem where
  id : Nat
  drawingId : Nat
  itemType : String
  wbsCategoryId : Option Nat
deriving Repr, DecidableEq

/-- Row of `rfqs` (`src/database/materials_db.py`); timestamps are
abstract instants (naturals). -/
structure Rfq where
  id : Nat
  projectId : Nat
  rfqNumber : String
  status : String
  sentAt : Option Nat
deriving Repr, DecidableEq

/-- Row of `page_scales` (`src/database/db.py`): at most one per
(drawing, page); `pixels_per_unit` is a nullable REAL column. -/
structure PageScale where
  drawingId : Nat
  pageNumber : Nat
  pixelsPerUnit : Option ℚ
deriving Repr, DecidableEq

/-- Row of `scale_zones` (`src/database/db.py`): a rectangle in page-pixel
space carrying its own pixels-per-unit; `id` is the AUTOINCREMENT key, so
a larger id means a more recently created zone. -/
structure ScaleZone where
  id : Nat
  drawingId : Nat
  pageNumber : Nat
  x : ℚ
  y : ℚ
  width : ℚ
  height : ℚ
  pixelsPerUnit : Option ℚ
deriving Repr, DecidableEq

/-! ## Calibration (`src/routes/scales.py`, `calibrate_scale`) -/

/-- The error returned by `calibrate_scale` when the required inputs are
missing: HTTP 400 with message `pixel_distance and real_distance required`. -/
inductive CalibrationError where
  | inputRequired
deriving Repr, DecidableEq

/-- The successful payload of `calibrate_scale`. -/
structure CalibrationResult where
  pixelsPerUnit : ℚ
  scaleRatio : ℚ
deriving Repr, DecidableEq

/-- Python truthiness of an optional numeric request field, as tested by
`if not pixel_distance or not real_distance` in `calibrate_scale`
(`src/routes/scales.py` lines 163 to 168): `None` and `0` are falsy,
every other number (negative numbers included) is truthy. -/
def pyFalsy (v : Option ℚ) : Bool :=
  match v with
  | none => true
  | some q => q = 0

/-- `calibrate_scale` (`src/routes/scales.py` lines 146 to 194), the value
computation: reject when either input is falsy, otherwise return
`pixels_per_unit = pixel_distance / real_distance` and
`scale_ratio = real_distance / pixel_distance`. -/
def calibrate_scale (pixel_distance real_distance : Option ℚ) :
    Except CalibrationError CalibrationResult :=
  if pyFalsy pixel_distance || pyFalsy real_distance then
    .error .inputRequired
  else
    let pd := pixel_distance.getD 0
    let rd := real_distance.getD 0
    .ok ⟨pd / rd, rd / pd⟩

/-- Rounding a rational to four decimal places, used only to state the
spec's display example `scale_ratio = 0.0667 (rounded)`. -/
def round4 (q : ℚ) : ℚ := (⌊q * 10000 + 1/2⌋ : ℚ) / 10000

/-! ## RFQ status lifecycle (`src/database/materials_db.py`, `update_rfq_status`) -/

/-- `update_rfq_status` (`src/database/materials_db.py` lines 390 to 398):
a first UPDATE sets the status of the matching row; when the new status is
`"sent"` a second UPDATE then stamps `sent_at` with `CURRENT_TIMESTAMP`,
unconditionally.  `now` is the value of `CURRENT_TIMESTAMP` at the call. -/
def update_rfq_status (rfqs : List Rfq) (now : Nat) (rfq_id : Nat)
    (status : String) : List Rfq :=
  let afterStatus :=
    rfqs.map (fun r => if r.id = rfq_id then { r with status := status } else r)
  if status = "sent" then
    afterStatus.map
      (fun r => if r.id = rfq_id then { r with sentAt := some now } else r)
  else
    afterStatus

/-! ## Scale resolution (spec §4.1; no resolver exists under `src/`) -/

/-- Failure of scale resolution: no zone contains the point and the page
has no default scale. -/
inductive ScaleError where
  | scaleUndefined
deriving Repr, DecidableEq

/-- A zone rectangle contains a point of the page (boundary inclusive). -/
def zoneContains (z : ScaleZone) (px py : ℚ) : Bool :=
  z.x ≤ px && px ≤ z.x + z.width && z.y ≤ py && py ≤ z.y + z.height

/-- Area of a zone rectangle in square page pixels. -/
def zoneArea (z : ScaleZone) : ℚ := z.width * z.height

/-- Deterministic tie-break between two candidate zones: the
smaller-area zone wins, ties broken in favour of the most recently
created zone (the larger AUTOINCREMENT id). -/
def betterZone (a b : ScaleZone) : ScaleZone :=
  if zoneArea b < zoneArea a ∨ (zoneArea b = zoneArea a ∧ a.id < b.id) then b
  else a

/-- The zones of a (drawing, page) that contain the point and carry a
resolved pixels-per-unit value. -/
def containingZones (zones : List ScaleZone) (drawingId pageNumber : Nat)
    (px py : ℚ) : List ScaleZone :=
  zones.filter (fun z =>
    z.drawingId == drawingId && z.pageNumber == pageNumber &&
    zoneContains z px py && z.pixelsPerUnit.isSome)

/-- The page default factor: the `page_scales` row for the
(drawing, page), when present and with its nullable `pixels_per_unit`
column set. -/
def pageScaleFactor (pageScales : List PageScale)
    (drawingId pageNumber : Nat) : Option ℚ :=
  (pageScales.find? (fun s =>
    s.drawingId == drawingId && s.pageNumber == pageNumber)).bind
    (fun s => s.pixelsPerUnit)

/-- Modelled from the spec: `src/` stores page scales and scale zones
(`src/routes/scales.py`, `src/database/db.py`) but contains no
ScaleResolver — measurement-time resolution is described only in spec
§4.1.  Resolution order, highest priority first: (1) a scale zone of the
(drawing, page) whose rectangle contains the point, the smallest-area
zone winning with ties broken by most recent creation; (2) the page
default scale when set; (3) failure with `ScaleUndefined` — never a
silently assumed default factor. -/
def resolve_scale (zones : List ScaleZone) (pageScales : List PageScale)
    (drawingId pageNumber : Nat) (px py : ℚ) : Except ScaleError ℚ :=
  match containingZones zones drawingId pageNumber px py with
  | z :: zs => .ok ((zs.foldl betterZone z).pixelsPerUnit.getD 0)
  | [] =>
    match pageScaleFactor pageScales drawingId pageNumber with
    | some v => .ok v
    | none => .error .scaleUndefined

/-! ## Database state shared by the ledger, WBS and rollup operations -/

/-- The tables the takeoff, WBS and rollup claims read and write.
`nextItemId` and `nextCategoryId` model the AUTOINCREMENT counters of
`takeoff_items` and `wbs_categories`. -/
structure Db where
  projects : List Project
  drawings : List Drawing
  materials : List Material
  cats : List WbsCategory
  items : List TakeoffItem
  detectedItems : List DetectedItem
  nextItemId : Nat
deriving Repr, DecidableEq

/-! ## Adding a takeoff item
(`src/routes/materials.py` `drawing_takeoff`,
`src/database/materials_db.py` `create_takeoff_item`) -/

/-- The failures of the POST branch of `drawing_takeoff`: 404 when the
drawing does not exist, 403 when its project is missing or belongs to a
company other than the session company. -/
inductive TakeoffApiError where
  | drawingNotFound
  | accessDenied
deriving Repr, DecidableEq

/-- POST branch of `drawing_takeoff` (`src/routes/materials.py` lines 117
to 152) followed by `create_takeoff_item`
(`src/database/materials_db.py` lines 229 to 241): after the drawing and
company checks the row is inserted as supplied — neither the sign of the
quantity nor the referenced material (existence, active flag, owning
company) is examined anywhere on the path. -/
def drawing_takeoff_post (db : Db) (sessionCompanyId : Nat)
    (drawingId pageNumber materialId : Nat) (wbsCategoryId : Option Nat)
    (quantity multiplier : ℚ) : Except TakeoffApiError (Db × Nat) :=
  match db.drawings.find? (fun d => d.id == drawingId) with
  | none => .error .drawingNotFound
  | some d =>
    match db.projects.find? (fun p => p.id == d.projectId) with
    | none => .error .accessDenied
    | some p =>
      if p.companyId ≠ sessionCompanyId then .error .accessDenied
      else
        let item : TakeoffItem :=
          ⟨db.nextItemId, drawingId, pageNumber, materialId,
           wbsCategoryId, quantity, multiplier⟩
        .ok ({ db with items := db.items ++ [item],
                       nextItemId := db.nextItemId + 1 }, db.nextItemId)

/-- A one-drawing database whose only material is inactive and owned by
company 2, while the project belongs to company 1. -/
def dbC4 : Db :=
  { projects := [⟨1, 1⟩]
    drawings := [⟨1, 1⟩]
    materials := [⟨7, 2, "PVC04020", "PVC Sch 40 Pipe", "2in pipe", "2in",
                   "LF", 13/4, 1/10, false⟩]
    cats := []
    items := []
    detectedItems := []
    nextItemId := 1 }

/-! ## WBS category deletion
(`src/routes/wbs.py` `wbs_category_detail`,
`src/database/models.py` `delete_wbs_category`) -/

/-- Modelled from the spec: `check_wbs_category_has_items` is imported by
`src/routes/wbs.py` and `src/database/__init__.py` but defined nowhere
under `src/`; spec §4.2 says deletion must be rejected "if any
TakeoffItem (or legacy detection record) references this category". -/
def check_wbs_category_has_items (db : Db) (categoryId : Nat) : Bool :=
  db.items.any (fun ti => ti.wbsCategoryId == some categoryId) ||
  db.detectedItems.any (fun di => di.wbsCategoryId == some categoryId)

/-- Modelled from the spec: `check_wbs_category_has_children` is imported
by `src/routes/wbs.py` but defined nowhere under `src/`; spec §4.2 says
deletion must be rejected "if any node has this as parent". -/
def check_wbs_category_has_children (db : Db) (categoryId : Nat) : Bool :=
  db.cats.any (fun c => c.parentId == some categoryId)

/-- `delete_wbs_category`, the effective (last) definition in
`src/database/models.py` lines 720 to 730: null out the WBS reference of
the detected items in this category, then delete the category row. -/
def delete_wbs_category (db : Db) (categoryId : Nat) : Db :=
  { db with
    detectedItems := db.detectedItems.map (fun di =>
      if di.wbsCategoryId == some categoryId then
        { di with wbsCategoryId := none }
      else di)
    cats := db.cats.filter (fun c => !(c.id == categoryId)) }

/-- Failures of the DELETE branch of `wbs_category_detail`: 404 when the
category does not exist, and the two 400 rejections of spec §4.2. -/
inductive WbsDeleteError where
  | notFound
  | categoryInUse
  | categoryHasChildren
deriving Repr, DecidableEq

/-- DELETE branch of `wbs_category_detail` (`src/routes/wbs.py` lines 52
to 88): 404 when the category is missing, reject when the category has
items or has children, otherwise run `delete_wbs_category`.  The
company-scoping check of the route is not modelled (no claim touches
it). -/
def wbs_category_detail_delete (db : Db) (categoryId : Nat) :
    Except WbsDeleteError Db :=
  match db.cats.find? (fun c => c.id == categoryId) with
  | none => .error .notFound
  | some _ =>
    if check_wbs_category_has_items db categoryId then
      .error .categoryInUse
    else if check_wbs_category_has_children db categoryId then
      .error .categoryHasChildren
    else
      .ok (delete_wbs_category db categoryId)

/-- A category table for the C3 witness: category 5 is an unreferenced
leaf of project 1. -/
def dbC3 : Db :=
  { projects := [⟨1, 1⟩]
    drawings := [⟨1, 1⟩]
    materials := []
    cats := [⟨5, 1, none, "UG Water", 0⟩, ⟨6, 1, none, "Fixtures", 1⟩]
    items := [⟨1, 1, 0, 7, some 6, 10, 1⟩]
    detectedItems := []
    nextItemId := 2 }

/-! ## WBS category creation (`src/database/models.py`) -/

/-- SQLite aggregate `MAX(sort_order)` over a row set: `NULL` (none) on
an empty set, otherwise the maximum. -/
def maxSortOrder (l : List WbsCategory) : Option Int :=
  match l.map WbsCategory.sortOrder with
  | [] => none
  | x :: xs => some (xs.foldl max x)

/-- Python `(max_order or 0)`: `None` and `0` are falsy and yield the
default; any other integer is returned unchanged. -/
def pyIntOr (v : Option Int) (d : Int) : Int :=
  match v with
  | none => d
  | some x => if x = 0 then d else x

/-- `create_wbs_category`, the effective (last) definition in
`src/database/models.py` lines 686 to 705: it accepts no parent
parameter; when `sort_order` is omitted it becomes
`(MAX(sort_order) over ALL the project's categories, Python-or 0) + 1`;
the INSERT names no `parent_id`, so the new row is a root.  `nextId`
models the AUTOINCREMENT key. -/
def create_wbs_category (cats : List WbsCategory) (nextId projectId : Nat)
    (name : String) (sortOrder : Option Int) : List WbsCategory × Nat :=
  let so := match sortOrder with
    | some s => s
    | none =>
      pyIntOr (maxSortOrder
        (cats.filter (fun c => c.projectId == projectId))) 0 + 1
  (cats ++ [⟨nextId, projectId, none, name, so⟩], nextId)

/-- `create_wbs_category` as defined at `src/database/models.py` lines
493 to 518 — the hierarchical variant whose signature the caller
`src/routes/wbs.py` line 32 expects (it passes a `parent_id` keyword):
when `sort_order` is omitted it becomes the maximum among the siblings
at the same parent level plus one.  In Python this definition is
shadowed by the later duplicate at lines 686 to 705, so it is not the
effective one. -/
def create_wbs_category_hierarchical (cats : List WbsCategory)
    (nextId projectId : Nat) (name : String) (parentId : Option Nat)
    (sortOrder : Option Int) : List WbsCategory × Nat :=
  let so := match sortOrder with
    | some s => s
    | none =>
      let siblings := match parentId with
        | none => cats.filter (fun c =>
            c.projectId == projectId && c.parentId == (none : Option Nat))
        | some pid => cats.filter (fun c =>
            c.projectId == projectId && c.parentId == some pid)
      pyIntOr (maxSortOrder siblings) 0 + 1
  (cats ++ [⟨nextId, projectId, parentId, name, so⟩], nextId)

/-- The failing input for C9: project 1 holds a root category (id 1,
sort order 0) and that category's child (id 2, sort order 5). -/
def catsC9 : List WbsCategory :=
  [⟨1, 1, none, "UG Water", 0⟩, ⟨2, 1, some 1, "Service Lines", 5⟩]

/-! ## Project takeoff rollup
(`src/database/materials_db.py` `get_project_takeoff_summary`) -/

/-- The `JOIN company_materials cm ON ti.material_id = cm.id` row of an
item (an inner join: items with a dangling material reference drop out). -/
def materialOf (db : Db) (ti : TakeoffItem) : Option Material :=
  db.materials.find? (fun m => m.id == ti.materialId)

/-- The `JOIN drawings d ON ti.drawing_id = d.id` combined with
`WHERE d.project_id = ?`. -/
def itemInProject (db : Db) (projectId : Nat) (ti : TakeoffItem) : Bool :=
  (db.drawings.find? (fun d => d.id == ti.drawingId)).any
    (fun d => d.projectId == projectId)

/-- The `LEFT JOIN wbs_categories wc` key component `wc.id`: `none` when
the item has no category or its category reference dangles. -/
def wbsKeyOf (db : Db) (ti : TakeoffItem) : Option Nat :=
  ti.wbsCategoryId.bind (fun cid =>
    (db.cats.find? (fun c => c.id == cid)).map (fun c => c.id))

/-- The joined rows of the summary query: each takeoff item of the
project paired with its material. -/
def summaryRows (db : Db) (projectId : Nat) :
    List (TakeoffItem × Material) :=
  db.items.filterMap (fun ti =>
    if itemInProject db projectId ti then
      (materialOf db ti).map (fun m => (ti, m))
    else none)

/-- The `GROUP BY wc.id, cm.id` key of a joined row. -/
def rowKey (db : Db) (tm : TakeoffItem × Material) : Option Nat × Nat :=
  (wbsKeyOf db tm.1, tm.2.id)

/-- One output row of `get_project_takeoff_summary`. -/
structure SummaryRow where
  wbsCategoryId : Option Nat
  materialId : Nat
  totalQuantity : ℚ
  totalPrice : ℚ
  totalLabor : ℚ
deriving Repr, DecidableEq

/-- The joined rows falling in one group. -/
def matchingRows (db : Db) (projectId : Nat) (key : Option Nat × Nat) :
    List (TakeoffItem × Material) :=
  (summaryRows db projectId).filter (fun tm => rowKey db tm == key)

/-- The aggregates of one group:
`SUM(ti.quantity * ti.multiplier)`,
`SUM(ti.quantity * ti.multiplier * cm.list_price)` and
`SUM(ti.quantity * cm.labor_units)` — the multiplier does not enter the
labor sum. -/
def summaryRowFor (db : Db) (projectId : Nat) (key : Option Nat × Nat) :
    SummaryRow :=
  let ms := matchingRows db projectId key
  ⟨key.1, key.2,
   (ms.map (fun tm => tm.1.quantity * tm.1.multiplier)).sum,
   (ms.map (fun tm => tm.1.quantity * tm.1.multiplier * tm.2.listPrice)).sum,
   (ms.map (fun tm => tm.1.quantity * tm.2.laborUnits)).sum⟩

/-- `get_project_takeoff_summary` (`src/database/materials_db.py` lines
277 to 302): `GROUP BY wc.id, cm.id` yields one aggregated row per
distinct key over exactly the joined rows carrying that key.  Keys are
kept in first-occurrence order; the SQL
`ORDER BY wc.sort_order, cm.category, cm.description` only permutes the
output rows and changes no group's membership or totals. -/
def get_project_takeoff_summary (db : Db) (projectId : Nat) :
    List SummaryRow :=
  (((summaryRows db projectId).map (rowKey db)).dedup).map
    (summaryRowFor db projectId)

/-- The summary row of one (WBS id, material id) group, when present. -/
def summaryLookup (db : Db) (projectId : Nat) (w : Option Nat) (m : Nat) :
    Option SummaryRow :=
  (get_project_takeoff_summary db projectId).find?
    (fun r => r.wbsCategoryId == w && r.materialId == m)

/-- The spec example ledger: one material priced 3.25 with labor units
0.10, measured twice (quantities 10 and 5, multiplier 1) in category 5 of
project 1. -/
def dbC1 : Db :=
  { projects := [⟨1, 1⟩]
    drawings := [⟨1, 1⟩]
    materials := [⟨10, 1, "PVC00424", "PVC DWV Fittings",
                   "2in PVC DWV Sanitary Tee", "2in", "EA", 13/4, 1/10, true⟩]
    cats := [⟨5, 1, none, "UG Water", 0⟩]
    items := [⟨1, 1, 0, 10, some 5, 10, 1⟩, ⟨2, 1, 0, 10, some 5, 5, 1⟩]
    detectedItems := []
    nextItemId := 3 }

/-! ## WBS rollup route
(`src/database/models.py` `get_takeoff_by_wbs`, `get_wbs_path`;
`src/routes/wbs.py` `project_takeoff_by_wbs`) -/

/-- `get_wbs_path` (`src/database/models.py` lines 558 to 575): walk the
parent chain upward from the node, prepending each name.  The Python
`while` loop terminates on acyclic data (the creation invariant of spec
§3); the walk here is fuelled by one more than the number of categories,
an upper bound on the chain length on such data. -/
def wbsPathNames (cats : List WbsCategory) : Nat → Option Nat → List String
  | _, none => []
  | 0, some _ => []
  | fuel + 1, some cid =>
    match cats.find? (fun c => c.id == cid) with
    | some c => wbsPathNames cats fuel c.parentId ++ [c.name]
    | none => []

/-- The names joined with " > " for display. -/
def get_wbs_path (cats : List WbsCategory) (categoryId : Nat) : String :=
  String.intercalate " > "
    (wbsPathNames cats (cats.length + 1) (some categoryId))

/-- One output row of `get_takeoff_by_wbs`. -/
structure TakeoffByWbsRow where
  wbsCategoryId : Option Nat
  wbsCategory : Option String
  itemType : String
  count : Nat
deriving Repr, DecidableEq

/-- The `LEFT JOIN wbs_categories` of a detected item. -/
def detectedWbsOf (db : Db) (di : DetectedItem) : Option WbsCategory :=
  di.wbsCategoryId.bind (fun cid => db.cats.find? (fun c => c.id == cid))

/-- The `JOIN drawings ... WHERE d.project_id = ?` filter of
`get_takeoff_by_wbs`. -/
def detectedOfProject (db : Db) (projectId : Nat) : List DetectedItem :=
  db.detectedItems.filter (fun di =>
    (db.drawings.find? (fun d => d.id == di.drawingId)).any
      (fun d => d.projectId == projectId))

/-- The `GROUP BY wc.id, wc.name, di.item_type` key of a joined detected
item. -/
def detectedKey (db : Db) (di : DetectedItem) :
    Option Nat × Option String × String :=
  match detectedWbsOf db di with
  | some c => (some c.id, some c.name, di.itemType)
  | none => (none, none, di.itemType)

/-- `get_takeoff_by_wbs`, the effective (last) definition in
`src/database/models.py` lines 732 to 750: the project's detected items
grouped by (category id, category name, item type), with `COUNT(*)` per
group.  Groups are kept in first-occurrence order; the SQL ORDER BY only
permutes the rows. -/
def get_takeoff_by_wbs (db : Db) (projectId : Nat) : List TakeoffByWbsRow :=
  ((((detectedOfProject db projectId)).map (detectedKey db)).dedup).map
    (fun k =>
      ⟨k.1, k.2.1, k.2.2,
       ((detectedOfProject db projectId).filter
         (fun di => detectedKey db di == k)).length⟩)

/-- One entry of the dictionary built by `project_takeoff_by_wbs`. -/
structure WbsGroup where
  wbsCategoryId : Option Nat
  wbsCategory : String
  items : List (String × Nat)
deriving Repr, DecidableEq

/-- The Python `row['wbs_category'] or 'Uncategorized'`: `None` and the
empty string are falsy and fall to the sentinel. -/
def wbsNameOr (name : Option String) : String :=
  match name with
  | none => "Uncategorized"
  | some nm => if nm = "" then "Uncategorized" else nm

/-- The dictionary key `project_takeoff_by_wbs` files a row under:
the category's full path when the row's `wbs_category_id` is truthy
(`if wbs_id:` — a hypothetical id 0 would also be falsy; AUTOINCREMENT
ids start at 1), otherwise the name-or-sentinel fallback. -/
def routeKey (db : Db) (row : TakeoffByWbsRow) : String :=
  match row.wbsCategoryId with
  | some cid =>
    if cid = 0 then wbsNameOr row.wbsCategory
    else get_wbs_path db.cats cid
  | none => wbsNameOr row.wbsCategory

/-- One step of the dictionary building in `project_takeoff_by_wbs`
(`src/routes/wbs.py` lines 109 to 131): append the row's (item type,
count) to the entry keyed by the row's name, creating the entry on first
sight. -/
def addRowToResult (db : Db) (acc : List WbsGroup)
    (row : TakeoffByWbsRow) : List WbsGroup :=
  let key := routeKey db row
  if acc.any (fun g => g.wbsCategory == key) then
    acc.map (fun g =>
      if g.wbsCategory == key then
        { g with items := g.items ++ [(row.itemType, row.count)] }
      else g)
  else
    acc ++ [⟨row.wbsCategoryId, key, [(row.itemType, row.count)]⟩]

/-- `project_takeoff_by_wbs` (`src/routes/wbs.py` lines 97 to 131): the
grouped rows filed into an insertion-ordered dictionary keyed by the
category path string. -/
def project_takeoff_by_wbs (db : Db) (projectId : Nat) : List WbsGroup :=
  (get_takeoff_by_wbs db projectId).foldl (addRowToResult db) []

/-- The C7 state: project 1 holds a root category named exactly
"Uncategorized" (id 1), one detected item assigned to it, one detected
item with no category, and one uncategorized takeoff item of material
3. -/
def dbC7 : Db :=
  { projects := [⟨1, 1⟩]
    drawings := [⟨1, 1⟩]
    materials := [⟨3, 1, "PVC04005", "PVC Sch 40 Pipe",
                   "half-inch pipe", "halfin", "LF", 1, 0, true⟩]
    cats := [⟨1, 1, none, "Uncategorized", 0⟩]
    items := [⟨1, 1, 0, 3, none, 2, 1⟩]
    detectedItems := [⟨1, 1, "pipe", none⟩, ⟨2, 1, "pipe", some 1⟩]
    nextItemId := 2 }

/-! ## WBS tree assembly (`src/database/models.py`,
`get_wbs_categories_tree`) -/

/-- The result of the two-pass tree build of `get_wbs_categories_tree`,
represented by category ids: `roots` lists the ids appended to the
top-level `tree` in order, `children` maps every fetched category id
(first pass) to the ids appended to that node's `children` list (second
pass).  The nested structure the route serialises is exactly this id
graph unfolded from the roots. -/
structure WbsTreeAcc where
  roots : List Nat
  children : List (Nat × List Nat)
deriving Repr, DecidableEq

/-- Append a child id to the children list of the entry keyed
`parentId` — the in-place `parent['children'].append(...)` on the
dictionary value. -/
def appendChild (m : List (Nat × List Nat)) (parentId childId : Nat) :
    List (Nat × List Nat) :=
  m.map (fun e => if e.1 == parentId then (e.1, e.2 ++ [childId]) else e)

/-- The second pass of `get_wbs_categories_tree` for one category: a
category with a null parent joins the roots; one whose parent id is a
key of the map is appended to that parent's children; otherwise
(`category_map.get` returns `None`) the category is dropped. -/
def treeStep (ids : List Nat) (acc : WbsTreeAcc) (c : WbsCategory) :
    WbsTreeAcc :=
  match c.parentId with
  | none => { acc with roots := acc.roots ++ [c.id] }
  | some p =>
    if p ∈ ids then
      { acc with children := appendChild acc.children p c.id }
    else acc

/-- `get_wbs_categories_tree` (`src/database/models.py` lines 454 to
485): the first pass keys every fetched category with an empty children
list; the second pass files each category as a root or under its
parent. -/
def get_wbs_categories_tree (cats : List WbsCategory) : WbsTreeAcc :=
  cats.foldl (treeStep (cats.map (fun c => c.id)))
    ⟨[], cats.map (fun c => (c.id, []))⟩

/-- Children lookup in the id map (first entry with the key). -/
def chLookup (m : List (Nat × List Nat)) (k : Nat) : Option (List Nat) :=
  (m.find? (fun e => e.1 == k)).map (fun e => e.2)

/-- Categories for the C10 witness: a root, its child, and an orphan
whose parent id 99 matches nothing. -/
def catsC10 : List WbsCategory :=
  [⟨1, 1, none, "UG Water", 0⟩, ⟨2, 1, some 1, "Service Lines", 1⟩,
   ⟨3, 1, some 99, "Dangling", 2⟩]

/-! ## Claims C5 and C6: calibration -/

/-- C5: for all positive `pixel_distance` and `real_distance`, calibration
returns `pixels_per_unit = pixel_distance / real_distance` and
`scale_ratio = real_distance / pixel_distance`, and dividing
`pixel_distance` by the returned `pixels_per_unit` reproduces
`real_distance` (exactly, in rational arithmetic); in particular 150 and
10 yield `pixels_per_unit = 15` and `scale_ratio` rounding to 0.0667. -/
theorem C5_calibration_roundtrip (pd rd : ℚ) (hpd : 0 < pd) (hrd : 0 < rd) :
    calibrate_scale (some pd) (some rd) = .ok ⟨pd / rd, rd / pd⟩ ∧
    pd / (pd / rd) = rd ∧
    calibrate_scale (some 150) (some 10) = .ok ⟨15, 1/15⟩ ∧
    round4 ((1 : ℚ) / 15) = 667 / 10000 := by
  have h1 : pd ≠ 0 := ne_of_gt hpd
  have h2 : rd ≠ 0 := ne_of_gt hrd
  refine ⟨?_, ?_, by norm_num [calibrate_scale, pyFalsy], by norm_num [round4]⟩
  · simp [calibrate_scale, pyFalsy, h1, h2]
  · rw [div_div_eq_mul_div, mul_comm, mul_div_assoc, div_self h1, mul_one]

/-- Witness for C5 at `pixel_distance = 150`, `real_distance = 10`. -/
theorem C5_calibration_roundtrip_witness :
    (0 : ℚ) < 150 ∧ (0 : ℚ) < 10 ∧
    (calibrate_scale (some 150) (some 10) = .ok ⟨150 / 10, 10 / 150⟩ ∧
     (150 : ℚ) / (150 / 10) = 10 ∧
     calibrate_scale (some 150) (some 10) = .ok ⟨15, 1/15⟩ ∧
     round4 ((1 : ℚ) / 15) = 667 / 10000) :=
  ⟨by norm_num, by norm_num,
   C5_calibration_roundtrip 150 10 (by norm_num) (by norm_num)⟩

/-- C6 counterexample: a strictly negative `pixel_distance` is NOT
rejected — `calibrate_scale` only tests Python truthiness (`None` or `0`),
so `pixel_distance = -150`, `real_distance = 10` passes the check and the
call succeeds with a negative factor instead of failing. -/
theorem C6_counterexample_negative_input_accepted :
    calibrate_scale (some (-150)) (some 10) = .ok ⟨-15, -(1/15)⟩ := by
  norm_num [calibrate_scale, pyFalsy]

/-- C6 amended: the calibration operation fails (with the missing-input
error) exactly when `pixel_distance` or `real_distance` is absent or
equal to zero; strictly negative inputs are accepted and produce a
result. -/
theorem C6_calibration_rejects_only_missing_or_zero (pd rd : Option ℚ) :
    calibrate_scale pd rd = .error .inputRequired ↔
      (pd = none ∨ pd = some 0 ∨ rd = none ∨ rd = some 0) := by
  rcases pd with _ | q
  · simp [calibrate_scale, pyFalsy]
  · rcases rd with _ | r
    · simp [calibrate_scale, pyFalsy]
    · by_cases hq : q = 0 <;> by_cases hr : r = 0 <;>
        simp [calibrate_scale, pyFalsy, hq, hr]

/-! ## Claim C8: the sent timestamp -/

/-- C8 counterexample: an RFQ already in status `"sent"` with
`sent_at = 5`, set to `"sent"` again at time 9 — the second UPDATE in
`update_rfq_status` runs unconditionally and overwrites the recorded
timestamp with 9, so the existing sent timestamp is NOT preserved. -/
theorem C8_counterexample_sent_timestamp_overwritten :
    update_rfq_status [⟨1, 1, "R1", "sent", some 5⟩] 9 1 "sent"
        = [⟨1, 1, "R1", "sent", some 9⟩] ∧
    update_rfq_status [⟨1, 1, "R1", "sent", some 5⟩] 9 1 "sent"
        ≠ [⟨1, 1, "R1", "sent", some 5⟩] := by
  constructor
  · rfl
  · decide

/-- C8 amended: setting an RFQ status to `"sent"` always stamps the sent
timestamp with the current time, overwriting any previously recorded
value (the status field itself is idempotent, but the timestamp is
re-stamped on every call). -/
theorem C8_sent_always_restamps (rfqs : List Rfq) (now rfq_id : Nat)
    (r : Rfq) (hmem : r ∈ rfqs) :
    (r.id = rfq_id →
      { r with status := "sent", sentAt := some now }
        ∈ update_rfq_status rfqs now rfq_id "sent") ∧
    (r.id ≠ rfq_id → r ∈ update_rfq_status rfqs now rfq_id "sent") := by
  have hres : update_rfq_status rfqs now rfq_id "sent" =
      (rfqs.map
        (fun r => if r.id = rfq_id then { r with status := "sent" } else r)).map
        (fun r => if r.id = rfq_id then { r with sentAt := some now } else r) := by
    simp [update_rfq_status]
  constructor
  · intro hid
    rw [hres, List.map_map]
    refine List.mem_map.mpr ⟨r, hmem, ?_⟩
    simp [Function.comp, hid]
  · intro hid
    rw [hres, List.map_map]
    refine List.mem_map.mpr ⟨r, hmem, ?_⟩
    simp [Function.comp, hid]

/-- Witness for C8 amended, at a two-row table. -/
theorem C8_sent_always_restamps_witness :
    ((⟨1, 1, "R1", "sent", some 5⟩ : Rfq) ∈
        ([⟨1, 1, "R1", "sent", some 5⟩, ⟨2, 1, "R2", "draft", none⟩] : List Rfq)) ∧
    (({ (⟨1, 1, "R1", "sent", some 5⟩ : Rfq) with
          status := "sent", sentAt := some 9 } : Rfq)
        ∈ update_rfq_status
            [⟨1, 1, "R1", "sent", some 5⟩, ⟨2, 1, "R2", "draft", none⟩] 9 1 "sent") := by
  have hmem : (⟨1, 1, "R1", "sent", some 5⟩ : Rfq) ∈
      ([⟨1, 1, "R1", "sent", some 5⟩, ⟨2, 1, "R2", "draft", none⟩] : List Rfq) := by
    decide
  exact ⟨hmem,
    (C8_sent_always_restamps
        [⟨1, 1, "R1", "sent", some 5⟩, ⟨2, 1, "R2", "draft", none⟩]
        9 1 ⟨1, 1, "R1", "sent", some 5⟩ hmem).1 rfl⟩

/-- The winner of a left fold of `betterZone` is one of the candidates. -/
theorem foldl_betterZone_mem (z : ScaleZone) (zs : List ScaleZone) :
    zs.foldl betterZone z ∈ z :: zs := by
  induction zs generalizing z with
  | nil => exact List.mem_cons_self z []
  | cons a zs ih =>
    have h := ih (betterZone z a)
    have hba : betterZone z a = z ∨ betterZone z a = a := by
      unfold betterZone
      split
      · exact Or.inr rfl
      · exact Or.inl rfl
    simp only [List.foldl_cons]
    rcases List.mem_cons.mp h with h1 | h2
    · rw [h1]
      rcases hba with hz | ha
      · rw [hz]
        exact List.mem_cons_self z (a :: zs)
      · rw [ha]
        exact List.mem_cons_of_mem z (List.mem_cons_self a zs)
    · exact List.mem_cons_of_mem z (List.mem_cons_of_mem a h2)

/-! ## Claim C2: scale resolution priority -/

/-- C2: resolution returns the factor of one of the containing zones of
the (drawing, page) when any exists (the winner is a single deterministic
function of the zone set), otherwise the page default when set, otherwise
it fails with `ScaleUndefined`; at the spec example — a zone covering
(0, 0, 100, 100) at 48 pixels-per-unit over a page default of 96 — the
point (50, 50) resolves to 48, not 96. -/
theorem C2_scale_resolution_priority (zones : List ScaleZone)
    (pageScales : List PageScale) (drawingId pageNumber : Nat) (px py : ℚ) :
    (containingZones zones drawingId pageNumber px py ≠ [] →
      ∃ w ∈ containingZones zones drawingId pageNumber px py,
        resolve_scale zones pageScales drawingId pageNumber px py
          = .ok (w.pixelsPerUnit.getD 0)) ∧
    (containingZones zones drawingId pageNumber px py = [] →
      ∀ v, pageScaleFactor pageScales drawingId pageNumber = some v →
        resolve_scale zones pageScales drawingId pageNumber px py = .ok v) ∧
    (containingZones zones drawingId pageNumber px py = [] →
      pageScaleFactor pageScales drawingId pageNumber = none →
        resolve_scale zones pageScales drawingId pageNumber px py
          = .error .scaleUndefined) ∧
    resolve_scale [⟨1, 1, 0, 0, 0, 100, 100, some 48⟩] [⟨1, 0, some 96⟩]
        1 0 50 50 = .ok 48 := by
  refine ⟨?_, ?_, ?_, ?_⟩
  · intro hne
    unfold resolve_scale
    rcases hcz : containingZones zones drawingId pageNumber px py with _ | ⟨z, zs⟩
    · exact absurd hcz hne
    · exact ⟨zs.foldl betterZone z, hcz ▸ foldl_betterZone_mem z zs, rfl⟩
  · intro hcz v hv
    unfold resolve_scale
    rw [hcz, hv]
  · intro hcz hv
    unfold resolve_scale
    rw [hcz, hv]
  · norm_num [resolve_scale, containingZones, zoneContains, betterZone,
      pageScaleFactor]

/-- Witness for C2 at the spec example state: the single zone at factor
48 contains the point and wins over the page default of 96. -/
theorem C2_scale_resolution_priority_witness :
    (containingZones [⟨1, 1, 0, 0, 0, 100, 100, some 48⟩] 1 0 50 50 ≠ [] ∧
     ∃ w ∈ containingZones [⟨1, 1, 0, 0, 0, 100, 100, some 48⟩] 1 0 50 50,
       resolve_scale [⟨1, 1, 0, 0, 0, 100, 100, some 48⟩] [⟨1, 0, some 96⟩]
         1 0 50 50 = .ok (w.pixelsPerUnit.getD 0)) ∧
    resolve_scale [⟨1, 1, 0, 0, 0, 100, 100, some 48⟩] [⟨1, 0, some 96⟩]
        1 0 50 50 = .ok 48 := by
  have hne : containingZones [⟨1, 1, 0, 0, 0, 100, 100, some 48⟩]
      1 0 50 50 ≠ [] := by
    norm_num [containingZones, zoneContains]
  have h := C2_scale_resolution_priority
    [⟨1, 1, 0, 0, 0, 100, 100, some 48⟩] [⟨1, 0, some 96⟩] 1 0 50 50
  exact ⟨⟨hne, h.1 hne⟩, h.2.2.2⟩

/-! ## Claim C4: ledger input validation -/

/-- C4 counterexample: a request with a negative quantity (-5) against an
inactive material (id 7) owned by company 2, on a project owned by
company 1, is NOT rejected — the route creates the takeoff item, so
neither the `InvalidQuantity` nor the `InvalidMaterial` failure of the
claim exists in the code. -/
theorem C4_counterexample_no_validation :
    drawing_takeoff_post dbC4 1 1 0 7 none (-5) 1
      = .ok ({ dbC4 with items := [⟨1, 1, 0, 7, none, -5, 1⟩],
                         nextItemId := 2 }, 1) ∧
    (dbC4.materials.find? (fun m => m.id == 7)).any
      (fun m => !m.isActive && m.companyId != 1) = true := by
  constructor
  · norm_num [drawing_takeoff_post, dbC4]
  · norm_num [dbC4]

/-- C4 amended: adding a takeoff item performs no quantity or material
validation — any quantity (negative included) and any material reference
(inactive, cross-company or dangling) create the item; the operation
fails only when the drawing does not exist (404) or when the drawing has
no project or its project belongs to a company other than the caller's
(403). -/
theorem C4_add_item_checks_only_drawing_and_company (db : Db)
    (sessionCompanyId drawingId pageNumber materialId : Nat)
    (wbsCategoryId : Option Nat) (quantity multiplier : ℚ) :
    (db.drawings.find? (fun d => d.id == drawingId) = none →
      drawing_takeoff_post db sessionCompanyId drawingId pageNumber
        materialId wbsCategoryId quantity multiplier
          = .error .drawingNotFound) ∧
    (∀ d, db.drawings.find? (fun d => d.id == drawingId) = some d →
      db.projects.find? (fun p => p.id == d.projectId) = none →
      drawing_takeoff_post db sessionCompanyId drawingId pageNumber
        materialId wbsCategoryId quantity multiplier
          = .error .accessDenied) ∧
    (∀ d p, db.drawings.find? (fun d => d.id == drawingId) = some d →
      db.projects.find? (fun q => q.id == d.projectId) = some p →
      p.companyId ≠ sessionCompanyId →
      drawing_takeoff_post db sessionCompanyId drawingId pageNumber
        materialId wbsCategoryId quantity multiplier
          = .error .accessDenied) ∧
    (∀ d p, db.drawings.find? (fun d => d.id == drawingId) = some d →
      db.projects.find? (fun q => q.id == d.projectId) = some p →
      p.companyId = sessionCompanyId →
      drawing_takeoff_post db sessionCompanyId drawingId pageNumber
        materialId wbsCategoryId quantity multiplier
          = .ok ({ db with
                    items := db.items ++
                      [⟨db.nextItemId, drawingId, pageNumber, materialId,
                        wbsCategoryId, quantity, multiplier⟩],
                    nextItemId := db.nextItemId + 1 }, db.nextItemId)) := by
  refine ⟨?_, ?_, ?_, ?_⟩
  · intro hfind
    simp [drawing_takeoff_post, hfind]
  · intro d hfind hproj
    simp [drawing_takeoff_post, hfind, hproj]
  · intro d p hfind hproj hne
    simp [drawing_takeoff_post, hfind, hproj, hne]
  · intro d p hfind hproj heq
    simp [drawing_takeoff_post, hfind, hproj, heq]

/-- Witness for C4 amended at `dbC4`: the checks pass and the unvalidated
item is created. -/
theorem C4_add_item_checks_only_drawing_and_company_witness :
    dbC4.drawings.find? (fun d => d.id == 1) = some ⟨1, 1⟩ ∧
    dbC4.projects.find? (fun q => q.id == 1) = some ⟨1, 1⟩ ∧
    drawing_takeoff_post dbC4 1 1 0 7 none (-5) 1
      = .ok ({ dbC4 with
                items := dbC4.items ++ [⟨dbC4.nextItemId, 1, 0, 7, none, -5, 1⟩],
                nextItemId := dbC4.nextItemId + 1 }, dbC4.nextItemId) := by
  have h1 : dbC4.drawings.find? (fun d => d.id == 1) = some ⟨1, 1⟩ := by rfl
  have h2 : dbC4.projects.find? (fun q => q.id == 1) = some ⟨1, 1⟩ := by rfl
  exact ⟨h1, h2,
    (C4_add_item_checks_only_drawing_and_company dbC4 1 1 0 7 none (-5) 1).2.2.2
      ⟨1, 1⟩ ⟨1, 1⟩ h1 h2 rfl⟩

/-- Splitting a list's length across a Boolean predicate. -/
theorem length_filter_not_add_length_filter {α : Type} (l : List α)
    (p : α → Bool) :
    (l.filter (fun x => !(p x))).length + (l.filter p).length = l.length := by
  induction l with
  | nil => rfl
  | cons a l ih =>
    cases h : p a <;> simp [List.filter_cons, h, ← ih] <;> omega

/-! ## Claim C3: guarded deletion -/

/-- C3: deleting a WBS category fails with `CategoryInUse` when any
takeoff item or legacy detection record references it and with
`CategoryHasChildren` when any category has it as parent — in both cases
returning an error and no new state — and succeeds exactly on an
unreferenced leaf, where it removes that one category row and leaves
every item, every detection record and every other category unchanged. -/
theorem C3_delete_category_guarded (db : Db) (categoryId : Nat)
    (c : WbsCategory)
    (hfind : db.cats.find? (fun c => c.id == categoryId) = some c)
    (hnodup : (db.cats.map WbsCategory.id).Nodup) :
    (check_wbs_category_has_items db categoryId = true →
      wbs_category_detail_delete db categoryId = .error .categoryInUse) ∧
    (check_wbs_category_has_items db categoryId = false →
      check_wbs_category_has_children db categoryId = true →
      wbs_category_detail_delete db categoryId
        = .error .categoryHasChildren) ∧
    (check_wbs_category_has_items db categoryId = false →
      check_wbs_category_has_children db categoryId = false →
      ∃ db2, wbs_category_detail_delete db categoryId = .ok db2 ∧
        db2.items = db.items ∧
        db2.detectedItems = db.detectedItems ∧
        db2.cats = db.cats.filter (fun c2 => !(c2.id == categoryId)) ∧
        db2.cats.length + 1 = db.cats.length ∧
        (∀ c2 ∈ db.cats, c2.id ≠ categoryId → c2 ∈ db2.cats) ∧
        (∀ c2 ∈ db2.cats, c2 ∈ db.cats ∧ c2.id ≠ categoryId)) := by
  refine ⟨?_, ?_, ?_⟩
  · intro hitems
    simp [wbs_category_detail_delete, hfind, hitems]
  · intro hitems hchildren
    simp [wbs_category_detail_delete, hfind, hitems, hchildren]
  · intro hitems hchildren
    refine ⟨delete_wbs_category db categoryId, ?_, ?_, ?_, rfl, ?_, ?_, ?_⟩
    · simp [wbs_category_detail_delete, hfind, hitems, hchildren]
    · rfl
    · -- no detected item references the category, so the NULL-update map
      -- is the identity
      have hnone : ∀ di ∈ db.detectedItems,
          (di.wbsCategoryId == some categoryId) = false := by
        intro di hdi
        have := List.any_eq_false.mp
          (Bool.or_eq_false_iff.mp hitems).2 di hdi
        simpa using this
      show db.detectedItems.map _ = db.detectedItems
      calc db.detectedItems.map (fun di =>
              if di.wbsCategoryId == some categoryId then
                { di with wbsCategoryId := none }
              else di)
          = db.detectedItems.map id := by
            apply List.map_congr_left
            intro di hdi
            simp [hnone di hdi]
        _ = db.detectedItems := List.map_id db.detectedItems
    · -- the deleted category was present exactly once
      have hc : c ∈ db.cats := List.mem_of_find?_eq_some hfind
      have hcid : c.id = categoryId := by
        have := List.find?_some hfind
        simpa using this
      show (db.cats.filter (fun c2 => !(c2.id == categoryId))).length + 1
          = db.cats.length
      have hmemid : categoryId ∈ db.cats.map WbsCategory.id :=
        List.mem_map.mpr ⟨c, hc, hcid⟩
      have hcount1 : (db.cats.map WbsCategory.id).count categoryId = 1 :=
        List.count_eq_one_of_mem hnodup hmemid
      have hfl : (db.cats.filter (fun c2 => c2.id == categoryId)).length = 1 := by
        have h1 : (db.cats.map WbsCategory.id).count categoryId
            = db.cats.countP (fun c2 => c2.id == categoryId) := by
          show (db.cats.map WbsCategory.id).countP (· == categoryId) = _
          rw [List.countP_map]
          rfl
        rw [h1, List.countP_eq_length_filter] at hcount1
        exact hcount1
      have hsplit := length_filter_not_add_length_filter db.cats
        (fun c2 => c2.id == categoryId)
      rw [hfl] at hsplit
      exact hsplit
    · intro c2 h2 hne
      exact List.mem_filter.mpr ⟨h2, by simpa using hne⟩
    · intro c2 h2
      have h3 := List.mem_filter.mp h2
      exact ⟨h3.1, by simpa using h3.2⟩

/-- Witness for C3 at `dbC3`: category 5 has no items and no children and
its deletion succeeds, removing exactly that row. -/
theorem C3_delete_category_guarded_witness :
    dbC3.cats.find? (fun c => c.id == 5) = some ⟨5, 1, none, "UG Water", 0⟩ ∧
    (dbC3.cats.map WbsCategory.id).Nodup ∧
    check_wbs_category_has_items dbC3 5 = false ∧
    check_wbs_category_has_children dbC3 5 = false ∧
    ∃ db2, wbs_category_detail_delete dbC3 5 = .ok db2 ∧
      db2.items = dbC3.items ∧
      db2.detectedItems = dbC3.detectedItems ∧
      db2.cats = dbC3.cats.filter (fun c2 => !(c2.id == 5)) ∧
      db2.cats.length + 1 = dbC3.cats.length ∧
      (∀ c2 ∈ dbC3.cats, c2.id ≠ 5 → c2 ∈ db2.cats) ∧
      (∀ c2 ∈ db2.cats, c2 ∈ dbC3.cats ∧ c2.id ≠ 5) := by
  have hfind : dbC3.cats.find? (fun c => c.id == 5)
      = some ⟨5, 1, none, "UG Water", 0⟩ := by rfl
  have hnodup : (dbC3.cats.map WbsCategory.id).Nodup := by decide
  refine ⟨hfind, hnodup, by decide, by decide, ?_⟩
  exact (C3_delete_category_guarded dbC3 5 ⟨5, 1, none, "UG Water", 0⟩
    hfind hnodup).2.2 (by decide) (by decide)

/-! ## Claim C9: sibling-level sort order assignment -/

/-- C9: at the failing input the effective `create_wbs_category`
(`src/database/models.py` lines 686 to 705) assigns the new root
sort order 6 — `MAX(sort_order)` over ALL the project's categories plus
one, the child's 5 included — where the claim (and the shadowed
hierarchical variant at lines 493 to 518, whose signature the route
actually calls) requires the maximum among root siblings only, giving
1. -/
theorem C9_sort_order_ignores_parent_level :
    (create_wbs_category catsC9 3 1 "UG Sanitary" none).1
      = catsC9 ++ [⟨3, 1, none, "UG Sanitary", 6⟩] ∧
    (create_wbs_category_hierarchical catsC9 3 1 "UG Sanitary" none none).1
      = catsC9 ++ [⟨3, 1, none, "UG Sanitary", 1⟩] ∧
    (6 : Int) ≠ 1 := by
  refine ⟨by decide, by decide, by decide⟩

/-- Searching a list for an element by `==` finds that element exactly
when it is present. -/
theorem find?_beq_self {α : Type} [DecidableEq α] (l : List α) (a : α) :
    l.find? (fun k => k = a) = if a ∈ l then some a else none := by
  induction l with
  | nil => simp
  | cons b l ih =>
    by_cases hb : b = a
    · subst hb
      simp [List.find?_cons]
    · simp [List.find?_cons, hb, ih]
      have : ¬a = b := fun h => hb h.symm
      simp [this]

/-- The group lookup of the summary: `none` when no joined row carries
the key, the aggregated row otherwise. -/
theorem summaryLookup_eq (db : Db) (projectId : Nat) (w : Option Nat)
    (m : Nat) :
    summaryLookup db projectId w m =
      if matchingRows db projectId (w, m) = [] then none
      else some (summaryRowFor db projectId (w, m)) := by
  unfold summaryLookup get_project_takeoff_summary
  rw [List.find?_map]
  have hpred : ((fun r => r.wbsCategoryId == w && r.materialId == m) ∘
      summaryRowFor db projectId)
      = (fun k : Option Nat × Nat => decide (k = (w, m))) := by
    funext k
    show ((k.1 == w) && (k.2 == m)) = decide (k = (w, m))
    rcases k with ⟨k1, k2⟩
    by_cases h1 : k1 = w <;> by_cases h2 : k2 = m <;>
      simp [h1, h2, Prod.ext_iff]
  rw [hpred, find?_beq_self]
  by_cases hmem : (w, m) ∈ ((summaryRows db projectId).map (rowKey db)).dedup
  · have hkeys : (w, m) ∈ (summaryRows db projectId).map (rowKey db) :=
      List.mem_dedup.mp hmem
    obtain ⟨tm, htm, hk⟩ := List.mem_map.mp hkeys
    have hne : matchingRows db projectId (w, m) ≠ [] := by
      intro hempty
      have := List.filter_eq_nil_iff.mp hempty tm htm
      simp [hk] at this
    simp [hmem, hne]
  · have hempty : matchingRows db projectId (w, m) = [] := by
      apply List.filter_eq_nil_iff.mpr
      intro tm htm hbeq
      apply hmem
      apply List.mem_dedup.mpr
      apply List.mem_map.mpr
      exact ⟨tm, htm, by simpa using hbeq⟩
    simp [hmem, hempty]

/-- Replacing the item table by a permutation of itself permutes the
joined rows of every group and leaves every group lookup unchanged. -/
theorem summaryLookup_perm (db : Db) (projectId : Nat) (w : Option Nat)
    (m : Nat) (items2 : List TakeoffItem) (hperm : db.items.Perm items2) :
    summaryLookup { db with items := items2 } projectId w m
      = summaryLookup db projectId w m := by
  have hrows : (summaryRows { db with items := items2 } projectId).Perm
      (summaryRows db projectId) := by
    have h2 : summaryRows { db with items := items2 } projectId
        = items2.filterMap (fun ti =>
            if itemInProject db projectId ti then
              (materialOf db ti).map (fun mm => (ti, mm))
            else none) := rfl
    have h1 : summaryRows db projectId
        = db.items.filterMap (fun ti =>
            if itemInProject db projectId ti then
              (materialOf db ti).map (fun mm => (ti, mm))
            else none) := rfl
    rw [h1, h2]
    exact (hperm.filterMap _).symm
  have hmatch : (matchingRows { db with items := items2 } projectId
      (w, m)).Perm (matchingRows db projectId (w, m)) := by
    have e2 : matchingRows { db with items := items2 } projectId (w, m)
        = (summaryRows { db with items := items2 } projectId).filter
            (fun tm => rowKey db tm == (w, m)) := rfl
    have e1 : matchingRows db projectId (w, m)
        = (summaryRows db projectId).filter
            (fun tm => rowKey db tm == (w, m)) := rfl
    rw [e1, e2]
    exact hrows.filter _
  rw [summaryLookup_eq, summaryLookup_eq]
  by_cases h : matchingRows db projectId (w, m) = []
  · have h2 : matchingRows { db with items := items2 } projectId (w, m)
        = [] := by
      have := hmatch
      rw [h] at this
      exact this.eq_nil
    rw [if_pos h, if_pos h2]
  · have h2 : matchingRows { db with items := items2 } projectId (w, m)
        ≠ [] := by
      intro hnil
      rw [hnil] at hmatch
      exact h hmatch.symm.eq_nil
    rw [if_neg h, if_neg h2]
    have hsum1 := (hmatch.map
      (fun tm : TakeoffItem × Material =>
        tm.1.quantity * tm.1.multiplier)).sum_eq
    have hsum2 := (hmatch.map
      (fun tm : TakeoffItem × Material =>
        tm.1.quantity * tm.1.multiplier * tm.2.listPrice)).sum_eq
    have hsum3 := (hmatch.map
      (fun tm : TakeoffItem × Material =>
        tm.1.quantity * tm.2.laborUnits)).sum_eq
    simp only [summaryRowFor]
    rw [hsum1, hsum2, hsum3]

/-! ## Claim C1: the project rollup -/

/-- C1: every row of the project rollup aggregates exactly the joined
items of its (WBS category, material) group — total quantity is the sum
of quantity times multiplier, total price the sum of quantity times
multiplier times unit list price, total labor the sum of quantity times
labor units with no multiplier; a group lookup is determined by the
group's item multiset alone, so any permutation of the insertion order
leaves it unchanged; and the spec example (price 3.25, labor 0.10,
quantities 10 and 5 at multiplier 1) rolls up to 15, 48.75 and 1.50. -/
theorem C1_project_rollup_grouped_sums (db : Db) (projectId : Nat)
    (w : Option Nat) (m : Nat) :
    (∀ row ∈ get_project_takeoff_summary db projectId,
      row.totalQuantity = ((matchingRows db projectId
          (row.wbsCategoryId, row.materialId)).map
          (fun tm => tm.1.quantity * tm.1.multiplier)).sum ∧
      row.totalPrice = ((matchingRows db projectId
          (row.wbsCategoryId, row.materialId)).map
          (fun tm => tm.1.quantity * tm.1.multiplier * tm.2.listPrice)).sum ∧
      row.totalLabor = ((matchingRows db projectId
          (row.wbsCategoryId, row.materialId)).map
          (fun tm => tm.1.quantity * tm.2.laborUnits)).sum) ∧
    (summaryLookup db projectId w m =
      if matchingRows db projectId (w, m) = [] then none
      else some (summaryRowFor db projectId (w, m))) ∧
    (∀ items2, db.items.Perm items2 →
      summaryLookup { db with items := items2 } projectId w m
        = summaryLookup db projectId w m) ∧
    get_project_takeoff_summary dbC1 1
      = [⟨some 5, 10, 15, 195/4, 3/2⟩] := by
  refine ⟨?_, summaryLookup_eq db projectId w m,
    fun items2 h => summaryLookup_perm db projectId w m items2 h, ?_⟩
  · intro row hrow
    obtain ⟨k, hk, hrfl⟩ := List.mem_map.mp hrow
    subst hrfl
    exact ⟨rfl, rfl, rfl⟩
  · have hsum : get_project_takeoff_summary dbC1 1
        = [summaryRowFor dbC1 1 (some 5, 10)] := rfl
    have hm : matchingRows dbC1 1 (some 5, 10)
        = [(⟨1, 1, 0, 10, some 5, 10, 1⟩,
            ⟨10, 1, "PVC00424", "PVC DWV Fittings",
             "2in PVC DWV Sanitary Tee", "2in", "EA", 13/4, 1/10, true⟩),
           (⟨2, 1, 0, 10, some 5, 5, 1⟩,
            ⟨10, 1, "PVC00424", "PVC DWV Fittings",
             "2in PVC DWV Sanitary Tee", "2in", "EA", 13/4, 1/10, true⟩)] := rfl
    rw [hsum]
    simp only [summaryRowFor, hm]
    norm_num

/-- Witness for C1 at the spec example ledger: the single rollup row, its
sums over the matching items, and invariance under swapping the two
insertions. -/
theorem C1_project_rollup_grouped_sums_witness :
    ((⟨some 5, 10, 15, 195/4, 3/2⟩ : SummaryRow)
        ∈ get_project_takeoff_summary dbC1 1 ∧
      (⟨some 5, 10, 15, 195/4, 3/2⟩ : SummaryRow).totalQuantity
        = ((matchingRows dbC1 1 (some 5, 10)).map
            (fun tm => tm.1.quantity * tm.1.multiplier)).sum) ∧
    dbC1.items.Perm
      [⟨2, 1, 0, 10, some 5, 5, 1⟩, ⟨1, 1, 0, 10, some 5, 10, 1⟩] ∧
    summaryLookup
        { dbC1 with
            items := [⟨2, 1, 0, 10, some 5, 5, 1⟩,
                      ⟨1, 1, 0, 10, some 5, 10, 1⟩] } 1 (some 5) 10
      = summaryLookup dbC1 1 (some 5) 10 := by
  have h := C1_project_rollup_grouped_sums dbC1 1 (some 5) 10
  have hexample := h.2.2.2
  have hmem : (⟨some 5, 10, 15, 195/4, 3/2⟩ : SummaryRow)
      ∈ get_project_takeoff_summary dbC1 1 := by
    rw [hexample]
    exact List.mem_singleton.mpr rfl
  have hperm : dbC1.items.Perm
      [⟨2, 1, 0, 10, some 5, 5, 1⟩, ⟨1, 1, 0, 10, some 5, 10, 1⟩] := by
    show List.Perm
      ([⟨1, 1, 0, 10, some 5, 10, 1⟩,
        ⟨2, 1, 0, 10, some 5, 5, 1⟩] : List TakeoffItem)
      ([⟨2, 1, 0, 10, some 5, 5, 1⟩,
        ⟨1, 1, 0, 10, some 5, 10, 1⟩] : List TakeoffItem)
    exact List.Perm.swap _ _ _
  refine ⟨⟨hmem, (h.1 _ hmem).1⟩, hperm, h.2.2.1 _ hperm⟩

/-- The key multiset of the dictionary after one fold step. -/
theorem addRow_keys (db : Db) (acc : List WbsGroup)
    (row : TakeoffByWbsRow) :
    (addRowToResult db acc row).map (fun g => g.wbsCategory)
      = if routeKey db row ∈ acc.map (fun g => g.wbsCategory) then
          acc.map (fun g => g.wbsCategory)
        else acc.map (fun g => g.wbsCategory) ++ [routeKey db row] := by
  unfold addRowToResult
  by_cases h : routeKey db row ∈ acc.map (fun g => g.wbsCategory)
  · have hany : acc.any (fun g => g.wbsCategory == routeKey db row)
        = true := by
      obtain ⟨g, hg, he⟩ := List.mem_map.mp h
      exact List.any_eq_true.mpr ⟨g, hg, by simp [he]⟩
    rw [if_pos h]
    simp only [hany, if_true, List.map_map]
    apply List.map_congr_left
    intro g hg
    by_cases hk : g.wbsCategory == routeKey db row
    · simp [Function.comp, hk]
    · simp [Function.comp, hk]
  · have hany : acc.any (fun g => g.wbsCategory == routeKey db row)
        = false := by
      apply List.any_eq_false.mpr
      intro g hg hbeq
      exact h (List.mem_map.mpr ⟨g, hg, by simpa using hbeq⟩)
    rw [if_neg h]
    simp [hany]

/-- The dictionary of `project_takeoff_by_wbs` never holds two entries
with the same key. -/
theorem foldl_addRow_keys_nodup (db : Db) (rows : List TakeoffByWbsRow)
    (acc : List WbsGroup)
    (hacc : (acc.map (fun g => g.wbsCategory)).Nodup) :
    ((rows.foldl (addRowToResult db) acc).map
      (fun g => g.wbsCategory)).Nodup := by
  induction rows generalizing acc with
  | nil => exact hacc
  | cons row rows ih =>
    simp only [List.foldl_cons]
    apply ih
    rw [addRow_keys]
    by_cases h : routeKey db row ∈ acc.map (fun g => g.wbsCategory)
    · simpa [h] using hacc
    · rw [if_neg h]
      simp [List.nodup_append, hacc, h]

/-! ## Claim C7: the "Uncategorized" sentinel -/

/-- C7 counterexample: in `dbC7` the uncategorized detected item and the
detected item of the real root category named exactly "Uncategorized"
land in ONE group of `project_takeoff_by_wbs` — the route keys its
dictionary by path string, so the sentinel bucket and the real category
collide instead of staying distinct. -/
theorem C7_counterexample_sentinel_merged_with_real_category :
    project_takeoff_by_wbs dbC7 1
      = [⟨none, "Uncategorized", [("pipe", 1), ("pipe", 1)]⟩] ∧
    (project_takeoff_by_wbs dbC7 1).length = 1 := by
  constructor <;> rfl

/-- C7 amended: the id-keyed material summary
(`get_project_takeoff_summary`) does keep uncategorized items distinct
from every real category (a joined row of the null-category group never
belongs to any real category's group), but the WBS rollup route
(`project_takeoff_by_wbs`) keys its groups by path string: an
uncategorized row and a row of a root category named exactly
"Uncategorized" both map to the key "Uncategorized", and the dictionary
holds at most one group per key, so the two are merged rather than kept
distinct. -/
theorem C7_uncategorized_sentinel_behaviour (db : Db)
    (projectId cid m : Nat) :
    (∀ tm ∈ matchingRows db projectId (none, m),
       tm ∉ matchingRows db projectId (some cid, m)) ∧
    (∀ row : TakeoffByWbsRow, row.wbsCategoryId = none →
       row.wbsCategory = none → routeKey db row = "Uncategorized") ∧
    (∀ c : WbsCategory, db.cats.find? (fun c2 => c2.id == cid) = some c →
       c.parentId = none → c.name = "Uncategorized" → cid ≠ 0 →
       ∀ row : TakeoffByWbsRow, row.wbsCategoryId = some cid →
         routeKey db row = "Uncategorized") ∧
    ((project_takeoff_by_wbs db projectId).map
      (fun g => g.wbsCategory)).Nodup := by
  refine ⟨?_, ?_, ?_, ?_⟩
  · intro tm hmem hmem2
    have h1 := (List.mem_filter.mp hmem).2
    have h2 := (List.mem_filter.mp hmem2).2
    have e1 : rowKey db tm = (none, m) := by simpa using h1
    have e2 : rowKey db tm = (some cid, m) := by simpa using h2
    rw [e1] at e2
    exact Option.noConfusion (congrArg Prod.fst e2)
  · intro row h1 h2
    unfold routeKey
    rw [h1, h2]
    rfl
  · intro c hfind hparent hname hcid row hrow
    unfold routeKey
    rw [hrow]
    simp only [if_neg hcid]
    unfold get_wbs_path
    have : wbsPathNames db.cats (db.cats.length + 1) (some cid)
        = ["Uncategorized"] := by
      rw [wbsPathNames, hfind]
      show wbsPathNames db.cats db.cats.length c.parentId ++ [c.name]
          = ["Uncategorized"]
      rw [hparent, hname]
      simp [wbsPathNames]
    rw [this]
    rfl
  · exact foldl_addRow_keys_nodup db _ [] (by simp)

/-- Witness for C7 amended at `dbC7`: the uncategorized ledger row is in
no real category's summary group, both kinds of rollup rows key to
"Uncategorized", and the dictionary keys are distinct. -/
theorem C7_uncategorized_sentinel_behaviour_witness :
    ((⟨1, 1, 0, 3, none, 2, 1⟩,
      ⟨3, 1, "PVC04005", "PVC Sch 40 Pipe", "half-inch pipe", "halfin",
       "LF", 1, 0, true⟩)
        ∈ matchingRows dbC7 1 (none, 3) ∧
     (⟨1, 1, 0, 3, none, 2, 1⟩,
      ⟨3, 1, "PVC04005", "PVC Sch 40 Pipe", "half-inch pipe", "halfin",
       "LF", 1, 0, true⟩)
        ∉ matchingRows dbC7 1 (some 1, 3)) ∧
    routeKey dbC7 ⟨none, none, "pipe", 1⟩ = "Uncategorized" ∧
    (dbC7.cats.find? (fun c2 => c2.id == 1)
        = some ⟨1, 1, none, "Uncategorized", 0⟩ ∧
     routeKey dbC7 ⟨some 1, some "Uncategorized", "pipe", 1⟩
        = "Uncategorized") ∧
    ((project_takeoff_by_wbs dbC7 1).map (fun g => g.wbsCategory)).Nodup := by
  have h := C7_uncategorized_sentinel_behaviour dbC7 1 1 3
  have hmem : (⟨1, 1, 0, 3, none, 2, 1⟩,
      (⟨3, 1, "PVC04005", "PVC Sch 40 Pipe", "half-inch pipe", "halfin",
       "LF", 1, 0, true⟩ : Material))
        ∈ matchingRows dbC7 1 (none, 3) := by
    have : matchingRows dbC7 1 (none, 3)
        = [(⟨1, 1, 0, 3, none, 2, 1⟩,
            ⟨3, 1, "PVC04005", "PVC Sch 40 Pipe", "half-inch pipe",
             "halfin", "LF", 1, 0, true⟩)] := rfl
    rw [this]
    exact List.mem_singleton.mpr rfl
  have hfind : dbC7.cats.find? (fun c2 => c2.id == 1)
      = some ⟨1, 1, none, "Uncategorized", 0⟩ := rfl
  refine ⟨⟨hmem, h.1 _ hmem⟩, h.2.1 _ rfl rfl,
    ⟨hfind, h.2.2.1 _ hfind rfl rfl (by decide) _ rfl⟩, h.2.2.2⟩

/-- Children lookup on a map with one entry exposed. -/
theorem chLookup_cons (e : Nat × List Nat) (m : List (Nat × List Nat))
    (k : Nat) :
    chLookup (e :: m) k = if e.1 == k then some e.2 else chLookup m k := by
  by_cases h : (e.1 == k) = true <;>
    simp [chLookup, List.find?_cons, h]

/-- Effect of `appendChild` on a children lookup. -/
theorem chLookup_appendChild (m : List (Nat × List Nat))
    (parentId childId k : Nat) :
    chLookup (appendChild m parentId childId) k
      = if k = parentId then
          (chLookup m k).map (fun l => l ++ [childId])
        else chLookup m k := by
  induction m with
  | nil => by_cases h : k = parentId <;> simp [appendChild, chLookup, h]
  | cons e m ih =>
    have hstep : appendChild (e :: m) parentId childId
        = (if e.1 == parentId then (e.1, e.2 ++ [childId]) else e)
            :: appendChild m parentId childId := rfl
    rw [hstep]
    by_cases hep : (e.1 == parentId) = true <;>
      by_cases hek : (e.1 == k) = true
    · have h1 : e.1 = parentId := by simpa using hep
      have h2 : e.1 = k := by simpa using hek
      have hkp : k = parentId := by rw [← h2, h1]
      rw [if_pos hep, chLookup_cons, chLookup_cons]
      simp [hek, hkp, h1]
    · have h1 : e.1 = parentId := by simpa using hep
      have hkp : ¬k = parentId := by
        intro h
        exact hek (by simp [h1, ← h])
      rw [if_pos hep, chLookup_cons, chLookup_cons]
      simp [hek, hkp, ih]
    · have h2 : e.1 = k := by simpa using hek
      have hkp : ¬k = parentId := by
        intro h
        exact hep (by simp [h2, h])
      rw [if_neg hep, chLookup_cons, chLookup_cons]
      simp [hek, hkp]
    · rw [if_neg hep, chLookup_cons, chLookup_cons]
      simp [hek, ih]

/-- The roots accumulated by the second pass: the null-parent categories
in order. -/
theorem treeFold_roots (cats : List WbsCategory) (ids : List Nat)
    (acc : WbsTreeAcc) :
    (cats.foldl (treeStep ids) acc).roots
      = acc.roots ++ (cats.filter
          (fun c => c.parentId == none)).map WbsCategory.id := by
  induction cats generalizing acc with
  | nil => simp
  | cons c cats ih =>
    rcases hc : c.parentId with _ | p
    · simp only [List.foldl_cons, treeStep, hc, List.filter_cons]
      rw [ih]
      simp [hc]
    · simp only [List.foldl_cons, treeStep, hc, List.filter_cons]
      by_cases hp : p ∈ ids
      · rw [if_pos hp, ih]
        simp [hc]
      · rw [if_neg hp, ih]
        simp [hc]

/-- The children list accumulated for a key by the second pass: the
categories whose parent is that key, in order — provided the key is in
the map; lookups of keys outside the map are untouched. -/
theorem treeFold_children (cats : List WbsCategory) (ids : List Nat)
    (acc : WbsTreeAcc) (k : Nat) :
    chLookup (cats.foldl (treeStep ids) acc).children k
      = if k ∈ ids then
          (chLookup acc.children k).map (fun l =>
            l ++ (cats.filter
              (fun c => c.parentId == some k)).map WbsCategory.id)
        else chLookup acc.children k := by
  induction cats generalizing acc with
  | nil =>
    by_cases hk : k ∈ ids
    · rw [List.foldl_nil, if_pos hk]
      cases chLookup acc.children k <;> simp
    · rw [List.foldl_nil, if_neg hk]
  | cons c cats ih =>
    rcases hc : c.parentId with _ | p
    · -- null parent: the children map is untouched and the filter head
      -- fails
      simp only [List.foldl_cons, treeStep, hc, List.filter_cons]
      rw [ih]
      by_cases hk : k ∈ ids
      · rw [if_pos hk, if_pos hk]
        simp
      · rw [if_neg hk, if_neg hk]
    · simp only [List.foldl_cons, treeStep, hc, List.filter_cons]
      by_cases hp : p ∈ ids
      · rw [if_pos hp, ih]
        dsimp only
        by_cases hk : k ∈ ids
        · rw [if_pos hk, if_pos hk, chLookup_appendChild]
          by_cases hkp : k = p
          · subst hkp
            rw [if_pos rfl]
            have hcond : ((some k : Option Nat) == some k) = true := by simp
            rw [if_pos hcond]
            cases chLookup acc.children k <;> simp
          · rw [if_neg hkp]
            have hcond : ¬((some p : Option Nat) == some k) = true := by
              simp
              exact fun h => hkp h.symm
            rw [if_neg hcond]
        · rw [if_neg hk, if_neg hk, chLookup_appendChild]
          have hkp : ¬k = p := fun h => hk (h ▸ hp)
          rw [if_neg hkp]
      · rw [if_neg hp, ih]
        by_cases hk : k ∈ ids
        · rw [if_pos hk, if_pos hk]
          have hkp : ¬p = k := fun h => hp (h ▸ hk)
          have hcond : ¬((some p : Option Nat) == some k) = true := by
            simpa using hkp
          rw [if_neg hcond]
        · rw [if_neg hk, if_neg hk]

/-- The first-pass map sends every fetched id to an empty children list
and holds no other key. -/
theorem chLookup_init (cats : List WbsCategory) (k : Nat) :
    chLookup (cats.map (fun c => (c.id, []))) k
      = if k ∈ cats.map WbsCategory.id then some [] else none := by
  induction cats with
  | nil => simp [chLookup]
  | cons c cats ih =>
    rw [List.map_cons, chLookup_cons]
    dsimp only
    by_cases hc : (c.id == k) = true
    · have he : c.id = k := by simpa using hc
      have hmem : k ∈ (c :: cats).map WbsCategory.id := by
        rw [List.map_cons]
        exact he ▸ List.mem_cons_self c.id _
      rw [if_pos hc, if_pos hmem]
    · have hcf : ¬c.id = k := by simpa using hc
      rw [if_neg hc, ih]
      by_cases hk : k ∈ cats.map WbsCategory.id
      · have hk2 : k ∈ (c :: cats).map WbsCategory.id := by
          rw [List.map_cons]
          exact List.mem_cons_of_mem _ hk
        rw [if_pos hk, if_pos hk2]
      · have hk2 : k ∉ (c :: cats).map WbsCategory.id := by
          rw [List.map_cons]
          intro hmem
          rcases List.mem_cons.mp hmem with h | h
          · exact hcf h.symm
          · exact hk h
        rw [if_neg hk, if_neg hk2]

/-- A filtered projection of distinct ids is again distinct. -/
theorem nodup_filter_map_id (cats : List WbsCategory)
    (hnodup : (cats.map WbsCategory.id).Nodup) (φ : WbsCategory → Bool) :
    ((cats.filter φ).map WbsCategory.id).Nodup :=
  List.Nodup.sublist
    (List.Sublist.map WbsCategory.id (List.filter_sublist cats)) hnodup

/-- With distinct ids, an id lies in a filtered projection exactly when
its category satisfies the filter. -/
theorem mem_filter_map_id_iff (cats : List WbsCategory)
    (hnodup : (cats.map WbsCategory.id).Nodup) (φ : WbsCategory → Bool)
    (c : WbsCategory) (hc : c ∈ cats) :
    c.id ∈ (cats.filter φ).map WbsCategory.id ↔ φ c = true := by
  constructor
  · intro hmem
    obtain ⟨c2, h2, he⟩ := List.mem_map.mp hmem
    have h2f := List.mem_filter.mp h2
    have he2 : c2 = c := List.inj_on_of_nodup_map hnodup h2f.1 hc he
    rw [← he2]
    exact h2f.2
  · intro hφ
    exact List.mem_map.mpr ⟨c, List.mem_filter.mpr ⟨hc, hφ⟩, rfl⟩

/-- With distinct ids, a category satisfying the filter contributes its
id to the filtered projection exactly once. -/
theorem count_filter_map_id (cats : List WbsCategory)
    (hnodup : (cats.map WbsCategory.id).Nodup) (φ : WbsCategory → Bool)
    (c : WbsCategory) (hc : c ∈ cats) (hφ : φ c = true) :
    ((cats.filter φ).map WbsCategory.id).count c.id = 1 :=
  List.count_eq_one_of_mem (nodup_filter_map_id cats hnodup φ)
    ((mem_filter_map_id_iff cats hnodup φ c hc).mpr hφ)

/-- The tree's top level: the null-parent categories in fetch order. -/
theorem tree_roots_eq (cats : List WbsCategory) :
    (get_wbs_categories_tree cats).roots
      = (cats.filter (fun c => c.parentId == none)).map WbsCategory.id := by
  unfold get_wbs_categories_tree
  rw [treeFold_roots]
  rfl

/-- The tree's children lists: for a fetched id, the categories whose
parent is that id, in fetch order; no other key is present. -/
theorem tree_children_eq (cats : List WbsCategory) (k : Nat) :
    chLookup (get_wbs_categories_tree cats).children k
      = if k ∈ cats.map WbsCategory.id then
          some ((cats.filter
            (fun c => c.parentId == some k)).map WbsCategory.id)
        else none := by
  unfold get_wbs_categories_tree
  rw [treeFold_children]
  dsimp only
  rw [chLookup_init]
  by_cases hk : k ∈ cats.map WbsCategory.id
  · rw [if_pos hk, if_pos hk, if_pos hk]
    rfl
  · rw [if_neg hk, if_neg hk, if_neg hk]

/-! ## Claim C10: membership in the assembled tree -/

/-- C10: with distinct category ids, `get_wbs_categories_tree` places a
null-parent category exactly once among the roots and in no children
list; a category whose parent id is a fetched id appears exactly once in
that parent's children list, in no other children list and not among the
roots; and a category whose parent id matches no fetched id is omitted
entirely — neither a root nor any node's child. -/
theorem C10_tree_roots_children_orphans (cats : List WbsCategory)
    (hnodup : (cats.map WbsCategory.id).Nodup) :
    (∀ c ∈ cats, c.parentId = none →
      ((get_wbs_categories_tree cats).roots.count c.id = 1 ∧
       ∀ p l, chLookup (get_wbs_categories_tree cats).children p = some l →
         c.id ∉ l)) ∧
    (∀ c ∈ cats, ∀ p, c.parentId = some p →
      p ∈ cats.map WbsCategory.id →
      (c.id ∉ (get_wbs_categories_tree cats).roots ∧
       ∃ l, chLookup (get_wbs_categories_tree cats).children p = some l ∧
         l.count c.id = 1 ∧
         ∀ k l2, k ≠ p →
           chLookup (get_wbs_categories_tree cats).children k = some l2 →
           c.id ∉ l2)) ∧
    (∀ c ∈ cats, ∀ p, c.parentId = some p →
      p ∉ cats.map WbsCategory.id →
      (c.id ∉ (get_wbs_categories_tree cats).roots ∧
       ∀ k l, chLookup (get_wbs_categories_tree cats).children k = some l →
         c.id ∉ l)) := by
  refine ⟨?_, ?_, ?_⟩
  · intro c hc hparent
    constructor
    · rw [tree_roots_eq]
      exact count_filter_map_id cats hnodup _ c hc (by simp [hparent])
    · intro p l hl hmem
      rw [tree_children_eq] at hl
      by_cases hp : p ∈ cats.map WbsCategory.id
      · rw [if_pos hp] at hl
        injection hl with hl
        rw [← hl] at hmem
        have hphi := (mem_filter_map_id_iff cats hnodup _ c hc).mp hmem
        simp [hparent] at hphi
      · rw [if_neg hp] at hl
        exact Option.noConfusion hl
  · intro c hc p hparent hp
    constructor
    · rw [tree_roots_eq]
      intro hmem
      have hphi := (mem_filter_map_id_iff cats hnodup _ c hc).mp hmem
      simp [hparent] at hphi
    · refine ⟨(cats.filter
          (fun c2 => c2.parentId == some p)).map WbsCategory.id,
        ?_, ?_, ?_⟩
      · rw [tree_children_eq, if_pos hp]
      · exact count_filter_map_id cats hnodup _ c hc (by simp [hparent])
      · intro k l2 hkp hl2 hmem
        rw [tree_children_eq] at hl2
        by_cases hk : k ∈ cats.map WbsCategory.id
        · rw [if_pos hk] at hl2
          injection hl2 with hl2
          rw [← hl2] at hmem
          have hphi := (mem_filter_map_id_iff cats hnodup _ c hc).mp hmem
          have hk2 : c.parentId = some k := by simpa using hphi
          rw [hparent] at hk2
          exact hkp (Option.some.inj hk2).symm
        · rw [if_neg hk] at hl2
          exact Option.noConfusion hl2
  · intro c hc p hparent hp
    constructor
    · rw [tree_roots_eq]
      intro hmem
      have hphi := (mem_filter_map_id_iff cats hnodup _ c hc).mp hmem
      simp [hparent] at hphi
    · intro k l hl hmem
      rw [tree_children_eq] at hl
      by_cases hk : k ∈ cats.map WbsCategory.id
      · rw [if_pos hk] at hl
        injection hl with hl
        rw [← hl] at hmem
        have hphi := (mem_filter_map_id_iff cats hnodup _ c hc).mp hmem
        have hk2 : c.parentId = some k := by simpa using hphi
        rw [hparent] at hk2
        have hpk : p = k := Option.some.inj hk2
        exact hp (hpk ▸ hk)
      · rw [if_neg hk] at hl
        exact Option.noConfusion hl

/-- Witness for C10 at `catsC10`: the root appears once among the roots,
the child once under the root, the orphan nowhere. -/
theorem C10_tree_roots_children_orphans_witness :
    (catsC10.map WbsCategory.id).Nodup ∧
    ((get_wbs_categories_tree catsC10).roots.count 1 = 1 ∧
     (2 : Nat) ∉ (get_wbs_categories_tree catsC10).roots ∧
     (∃ l, chLookup (get_wbs_categories_tree catsC10).children 1 = some l ∧
        l.count 2 = 1) ∧
     (3 : Nat) ∉ (get_wbs_categories_tree catsC10).roots ∧
     (∀ k l, chLookup (get_wbs_categories_tree catsC10).children k = some l →
        (3 : Nat) ∉ l)) := by
  have hnodup : (catsC10.map WbsCategory.id).Nodup := by decide
  have h := C10_tree_roots_children_orphans catsC10 hnodup
  have hc1 : (⟨1, 1, none, "UG Water", 0⟩ : WbsCategory) ∈ catsC10 := by
    decide
  have hc2 : (⟨2, 1, some 1, "Service Lines", 1⟩ : WbsCategory) ∈ catsC10 := by
    decide
  have hc3 : (⟨3, 1, some 99, "Dangling", 2⟩ : WbsCategory) ∈ catsC10 := by
    decide
  have hp1 : (1 : Nat) ∈ catsC10.map WbsCategory.id := by decide
  have hp99 : (99 : Nat) ∉ catsC10.map WbsCategory.id := by decide
  have h1 := h.1 _ hc1 rfl
  have h2 := h.2.1 _ hc2 1 rfl hp1
  have h3 := h.2.2 _ hc3 99 rfl hp99
  obtain ⟨l, hl, hcount, _⟩ := h2.2
  exact ⟨hnodup, h1.1, h2.1, ⟨l, hl, hcount⟩, h3.1, h3.2⟩

end PlumbingEstimator
